import Mathlib

/-!
Verification development for the portal repository's resource-lifecycle and
health-supervision core.

The development shallowly embeds three components of the JavaScript source:

* `TabManager` (src/unnamed/part_001): the tab registry with open / activate /
  close / deferred-load operations;
* `HealthCheckManager` (src/integrated_portal/static/js/main.js): the polling
  health monitor with retry, adaptive interval and circuit breaker;
* `ServiceManager` (src/unnamed/part_000): the service start/stop controller.

Conventions of the embedding:

* The browser event loop is single-threaded and every handler runs to
  completion; operations are therefore modelled as pure state transformers.
  `Date.now()` is passed in as an explicit `now : Nat` argument.
* An `async` close confirmation dialog (`showCloseConfirmation`) is modelled by
  a `CloseAnswer` oracle argument giving the user's eventual answer; the state
  returned is the settled state once the awaited continuation has run.
* JavaScript `Map`s preserve insertion order, so the tab registry is a
  `List Tab` keyed by `Tab.id`; `Set`s (`lazyLoadQueue`, timer keys) are
  duplicate-free `List TabId`.
* Presentation-only data (display names, icons, DOM elements, notifications,
  performance metrics) is not part of the model.
-/

namespace Portal

/-- Tab kinds: the welcome tab (`type: 'welcome'`) or a hosted sub-application
tab (`type: 'system'`), from part_001. -/
inductive TabType
  | welcome
  | system
deriving DecidableEq

/-- The `status` field values used by part_001: `'pending'`, `'loading'`,
`'loaded'`, `'unloaded'`, `'error'`. -/
inductive TabStatus
  | pending
  | loading
  | loaded
  | unloaded
  | error
deriving DecidableEq

/-- The `priority` option of `openTab` (`'normal'` or `'high'`). -/
inductive Priority
  | normal
  | high
deriving DecidableEq

/-- Tab identifiers.  The source uses the strings `'welcome'` and
`` `tab-${systemName}-${++this.tabCounter}` ``; for the configured system
names this string format is injective, which the structured type reflects. -/
inductive TabId
  | welcome
  | sys (name : String) (n : Nat)
deriving DecidableEq

/-- The user's answer to the close-confirmation dialog of `closeTab`
(`showCloseConfirmation` resolves `null` on cancel, `false` for close-only,
`true` for stop-service-and-close). -/
inductive CloseAnswer
  | cancel
  | closeOnly
  | stopAndClose
deriving DecidableEq

/-- One tab object of `TabManager.tabs` (part_001, `openTab` lines 126-142 and
`createWelcomeTab` lines 85-92).  Fields absent on the welcome-tab object
(`status`, `system`, timestamps, ...) are modelled by `none` / `false` / `0`.
Presentation fields (`name`, `icon`, `url`) are omitted. -/
structure Tab where
  id : TabId
  tabType : TabType
  system : Option String
  isClosable : Bool
  isActive : Bool
  status : Option TabStatus
  createTime : Nat
  lastActiveTime : Nat
  isLoaded : Bool
  priority : Priority
  loadStartTime : Option Nat
  loadTime : Option Nat
deriving DecidableEq

/-- Options object accepted by `openTab` (`options.priority`,
`options.immediate`). -/
structure OpenOptions where
  priority : Priority
  immediate : Bool
deriving DecidableEq

/-- The mutable state of a `TabManager` instance (constructor of part_001):
`tabs`, `activeTab`, `tabCounter`, `lazyLoadQueue`, `inactiveTabTimers`
(modelled as the set of tab ids with a pending unload timer). -/
structure TMState where
  tabs : List Tab
  activeTab : Option TabId
  tabCounter : Nat
  lazyLoadQueue : List TabId
  inactiveTabTimers : List TabId
deriving DecidableEq

/-- `this.maxTabs = 10` (part_001 line 12). -/
def maxTabs : Nat := 10

/-- The keys of `window.PortalConfig.systems` (main.js lines 97-126). -/
def portalSystems : List String := ["writing", "qa_sys", "case2pg", "censor"]

/-- `this.tabs.get(tabId)` on the insertion-ordered registry. -/
def findTab : List Tab → TabId → Option Tab
  | [], _ => none
  | t :: ts, i => if t.id = i then some t else findTab ts i

/-- In-place mutation of the tab object stored under `id` (JS mutates the
object held by the `Map`). -/
def updateTab (tabs : List Tab) (i : TabId) (f : Tab → Tab) : List Tab :=
  tabs.map (fun t => if t.id = i then f t else t)

/-- `Set.delete` on a duplicate-free id list. -/
def removeId (l : List TabId) (x : TabId) : List TabId :=
  l.filter (fun y => decide (y ≠ x))

/-- `Set.add` / `Map.set` keyed by id: adds the id if not already present. -/
def addIfAbsent (l : List TabId) (x : TabId) : List TabId :=
  if x ∈ l then l else l ++ [x]

/-- The per-tab mutation of `loadTabContent`: set status `'loading'`, record
`loadStartTime`, mark `isLoaded`. -/
def loadF (now : Nat) (t : Tab) : Tab :=
  { t with status := some TabStatus.loading, loadStartTime := some now,
           isLoaded := true }

/-- The per-tab mutation of `activateTab`'s deactivation loop: clear
`isActive` and stamp `lastActiveTime` on every previously active tab. -/
def deactF (now : Nat) (t : Tab) : Tab :=
  if t.isActive then { t with isActive := false, lastActiveTime := now } else t

/-- The per-tab mutation activating the target tab. -/
def actF (now : Nat) (t : Tab) : Tab :=
  { t with isActive := true, lastActiveTime := now }

/-- `TabManager.loadTabContent` (part_001 lines 449-470): no-op unless the tab
exists, is a system tab and is not yet loaded; otherwise removes it from the
lazy-load queue, sets status `'loading'`, records `loadStartTime` and marks
`isLoaded = true`. -/
def loadTabContent (s : TMState) (tabId : TabId) (now : Nat) : TMState :=
  match findTab s.tabs tabId with
  | none => s
  | some tab =>
    if tab.tabType ≠ TabType.system ∨ tab.isLoaded = true then s
    else
      { s with
        lazyLoadQueue := removeId s.lazyLoadQueue tabId,
        tabs := updateTab s.tabs tabId (loadF now) }

/-- `TabManager.activateTab` (part_001 lines 284-359): no-op on an unknown id;
otherwise clears the previous active tab's unload timer, deactivates every
active tab (stamping `lastActiveTime` and scheduling its unload timer),
activates the target (stamping `lastActiveTime`), and finally eagerly loads
the target if it is an unloaded system tab (`if (!tab.isLoaded && tab.type
=== 'system') this.loadTabContent(tabId)`).  `applyActivation` is the
activation bookkeeping before that eager-load step. -/
def applyActivation (s : TMState) (tabId : TabId) (now : Nat) : TMState :=
  let timers :=
    match s.activeTab with
    | some a => removeId s.inactiveTabTimers a
    | none => s.inactiveTabTimers
  let timers2 := (s.tabs.filter (fun t => t.isActive)).foldl
    (fun acc t => addIfAbsent acc t.id) timers
  { s with tabs := updateTab (s.tabs.map (deactF now)) tabId (actF now),
           activeTab := some tabId, inactiveTabTimers := timers2 }

def activateTab (s : TMState) (tabId : TabId) (now : Nat) : TMState :=
  match findTab s.tabs tabId with
  | none => s
  | some tab =>
    if tab.isLoaded = false ∧ tab.tabType = TabType.system
    then loadTabContent (applyActivation s tabId now) tabId now
    else applyActivation s tabId now

/-- `TabManager.activateNextTab` (part_001 lines 929-938): if any tab remains,
activate the welcome tab when present, otherwise the last tab in insertion
order. -/
def activateNextTab (s : TMState) (now : Nat) : TMState :=
  match s.tabs.find? (fun t => decide (t.tabType = TabType.welcome)) with
  | some w => activateTab s w.id now
  | none =>
    match s.tabs.getLast? with
    | some last => activateTab s last.id now
    | none => s

/-- `TabManager.closeTab` (part_001 lines 560-619): no-op on an unknown or
non-closable tab; for a system tab (with `confirmClose`) the confirmation
dialog may cancel the whole close (`ans = cancel`).  Otherwise clears the
tab's unload timer, removes it from the lazy-load queue and the registry, and
if it was the active tab runs `activateNextTab`.  (`ans = stopAndClose`
additionally issues an external stop command, outside the registry state.)
`removeTabState` is the timer / queue / registry removal step. -/
def removeTabState (s : TMState) (tabId : TabId) : TMState :=
  { s with
    inactiveTabTimers := removeId s.inactiveTabTimers tabId,
    lazyLoadQueue := removeId s.lazyLoadQueue tabId,
    tabs := s.tabs.filter (fun t => decide (t.id ≠ tabId)) }

def closeTab (s : TMState) (tabId : TabId) (confirmClose : Bool) (now : Nat)
    (ans : CloseAnswer) : TMState :=
  match findTab s.tabs tabId with
  | none => s
  | some tab =>
    if tab.isClosable = false then s
    else if tab.tabType = TabType.system ∧ tab.system.isSome ∧
            confirmClose = true ∧ ans = CloseAnswer.cancel then s
    else if s.activeTab = some tabId then activateNextTab (removeTabState s tabId) now
    else removeTabState s tabId

/-- The accumulator step of `closeOldestInactiveTab`'s selection loop
(part_001 lines 1249-1257): keep the first strictly older closable inactive
tab seen so far; `oldestTime` starts at `Date.now()`. -/
def selStep (acc : Option Tab × Nat) (t : Tab) : Option Tab × Nat :=
  if t.isClosable = true ∧ t.isActive = false ∧ t.lastActiveTime < acc.2
  then (some t, t.lastActiveTime) else acc

/-- The tab selected for eviction by `closeOldestInactiveTab`. -/
def closeOldestSelect (tabs : List Tab) (now : Nat) : Option Tab :=
  (tabs.foldl selStep ((none : Option Tab), now)).1

/-- `TabManager.closeOldestInactiveTab` (part_001 lines 1248-1262): closes the
selected tab (with the confirmation dialog, default `confirmClose = true`), or
does nothing when no tab qualifies. -/
def closeOldestInactiveTab (s : TMState) (now : Nat) (ans : CloseAnswer) : TMState :=
  match closeOldestSelect s.tabs now with
  | some t => closeTab s t.id true now ans
  | none => s

/-- `TabManager.openTab` (part_001 lines 105-163): unknown system names are
rejected with only a `console.error`; an existing tab for the system is
activated instead of duplicated; at capacity the oldest inactive closable tab
is closed first; then a fresh `pending` tab is inserted, rendered and
activated, and finally either loaded immediately (priority high / immediate)
or put on the lazy-load queue for deferred loading.  `freshTab` is the new
tab object built at part_001 lines 126-142. -/
def freshTab (systemName : String) (pr : Priority) (now : Nat) (c : Nat) : Tab :=
  { id := TabId.sys systemName c, tabType := TabType.system,
    system := some systemName, isClosable := true, isActive := false,
    status := some TabStatus.pending, createTime := now, lastActiveTime := now,
    isLoaded := false, priority := pr, loadStartTime := none, loadTime := none }

def openTab (s : TMState) (systemName : String) (opts : OpenOptions) (now : Nat)
    (ans : CloseAnswer) : TMState :=
  if systemName ∉ portalSystems then s
  else
    match s.tabs.find? (fun t => decide (t.system = some systemName)) with
    | some existing => activateTab s existing.id now
    | none =>
      let s1 := if maxTabs ≤ s.tabs.length then closeOldestInactiveTab s now ans else s
      let tabId := TabId.sys systemName (s1.tabCounter + 1)
      let s2 : TMState :=
        { s1 with tabs := s1.tabs ++ [freshTab systemName opts.priority now (s1.tabCounter + 1)],
                  tabCounter := s1.tabCounter + 1 }
      let s3 := activateTab s2 tabId now
      if opts.priority = Priority.high ∨ opts.immediate = true
      then loadTabContent s3 tabId now
      else { s3 with lazyLoadQueue := addIfAbsent s3.lazyLoadQueue tabId }

/-- The deferred-load callback scheduled by `TabManager.scheduleTabLoad`
(part_001 lines 1187-1203): when it fires it loads the tab only if the id is
still in the lazy-load queue. -/
def runScheduledLoad (s : TMState) (tabId : TabId) (now : Nat) : TMState :=
  if tabId ∈ s.lazyLoadQueue then loadTabContent s tabId now else s

/-- The welcome tab created by `createWelcomeTab` (part_001 lines 84-98). -/
def welcomeTab : Tab :=
  { id := TabId.welcome, tabType := TabType.welcome, system := none,
    isClosable := false, isActive := true, status := none, createTime := 0,
    lastActiveTime := 0, isLoaded := false, priority := Priority.normal,
    loadStartTime := none, loadTime := none }

/-- The initial `TabManager` state after `init` / `createWelcomeTab`. -/
def tmInit : TMState :=
  { tabs := [welcomeTab], activeTab := some TabId.welcome, tabCounter := 0,
    lazyLoadQueue := [], inactiveTabTimers := [] }

/-- The UI-driven intents on the tab registry, each carrying its `Date.now()`
and, for close-capable paths, the confirmation-dialog answer. -/
inductive TMOp
  | opOpen (systemName : String) (opts : OpenOptions) (now : Nat) (ans : CloseAnswer)
  | opActivate (tabId : TabId) (now : Nat)
  | opClose (tabId : TabId) (confirmClose : Bool) (now : Nat) (ans : CloseAnswer)
  | opSched (tabId : TabId) (now : Nat)

/-- Dispatch one operation. -/
def stepOp (s : TMState) : TMOp → TMState
  | TMOp.opOpen systemName opts now ans => openTab s systemName opts now ans
  | TMOp.opActivate tabId now => activateTab s tabId now
  | TMOp.opClose tabId confirmClose now ans => closeTab s tabId confirmClose now ans
  | TMOp.opSched tabId now => runScheduledLoad s tabId now

/-- Run a sequence of operations from a state. -/
def runOps (s : TMState) (ops : List TMOp) : TMState :=
  ops.foldl stepOp s

/-- The state after opening the `writing` system once from the initial
state (at time 1, with normal priority). -/
def exOpened : TMState :=
  runOps tmInit
    [TMOp.opOpen "writing" { priority := Priority.normal, immediate := false } 1
      CloseAnswer.closeOnly]

/-!
### Health monitor (`HealthCheckManager`, main.js lines 513-910)

Probe attempt outcomes for one cycle are an oracle `outcomes : Nat → Bool`
(`true` = the attempt succeeds); the payload's `overall_status === 'healthy'`
test, which only governs clearing the error history, is the `healthy` flag.
The adaptive interval is exact rational arithmetic standing for the
JavaScript float computation (only multiplications by 0.9 / 1.5 bounded by
`max` / `min` occur, so the bound claims are insensitive to rounding).
-/

/-- `this.maxRetries = 3`. -/
def hcMaxRetries : Nat := 3

/-- `this.retryDelay = 1000` (ms). -/
def hcRetryDelay : Nat := 1000

/-- `this.maxConsecutiveFailures = 5`. -/
def hcMaxConsecutiveFailures : Nat := 5

/-- `this.maxErrorHistory = 10`. -/
def hcMaxErrorHistory : Nat := 10

/-- `window.PortalConfig.healthCheckInterval = 60000` (ms), the base polling
interval. -/
def hcBaseInterval : ℚ := 60000

/-- The growth cap factor: `healthCheckInterval * 5` in `onCheckFailure`. -/
def hcCapMultiplier : ℚ := 5

/-- `this.circuitBreakerTimeout = 30000` (ms), the breaker cooldown. -/
def hcBreakerTimeout : Nat := 30000

/-- The mutable state of `HealthCheckManager` (constructor, main.js lines
514-529).  `errorHistory` keeps the failure timestamps; presentation-only
fields (UI notification bookkeeping) are omitted. -/
structure HCState where
  isChecking : Bool
  retryCount : Nat
  consecutiveFailures : Nat
  adaptiveInterval : ℚ
  lastSuccessTime : Option Nat
  errorHistory : List Nat
  circuitBreakerOpen : Bool
  lastCircuitBreakerReset : Option Nat
deriving DecidableEq

/-- Initial `HealthCheckManager` state. -/
def hcInit : HCState :=
  { isChecking := false, retryCount := 0, consecutiveFailures := 0,
    adaptiveInterval := hcBaseInterval, lastSuccessTime := none,
    errorHistory := [], circuitBreakerOpen := false,
    lastCircuitBreakerReset := none }

/-- Whether `performHealthCheckWithRetry` (main.js lines 611-641) succeeds:
the loop runs attempts `0 .. maxRetries` and returns on the first success. -/
def retrySucceeds (outcomes : Nat → Bool) : Bool :=
  ((List.range (hcMaxRetries + 1)).find? (fun k => outcomes k)).isSome

/-- The number of probe attempts `performHealthCheckWithRetry` issues: one per
loop iteration up to and including the first success, or all
`maxRetries + 1` iterations when every attempt fails. -/
def retryAttempts (outcomes : Nat → Bool) : Nat :=
  match (List.range (hcMaxRetries + 1)).find? (fun k => outcomes k) with
  | some k => k + 1
  | none => hcMaxRetries + 1

/-- The backoff delay before retry attempt `k ≥ 1`:
`this.retryDelay * Math.pow(2, attempt - 1)` (main.js line 618). -/
def retryWait (k : Nat) : Nat :=
  hcRetryDelay * 2 ^ (k - 1)

/-- The list of backoff delays actually waited during one cycle (attempt 0 has
no delay; each later performed attempt `k` waits `retryWait k` first). -/
def cycleDelays (outcomes : Nat → Bool) : List Nat :=
  ((List.range (retryAttempts outcomes)).filter (fun k => decide (1 ≤ k))).map retryWait

/-- `HealthCheckManager.onCheckSuccess` (main.js lines 646-680): reset failure
counters, close the breaker, shrink the interval multiplicatively (×0.9)
floored at the base interval, and clear the error history when recovering to
a healthy payload. -/
def onCheckSuccess (s : HCState) (now : Nat) (healthy : Bool) : HCState :=
  let s1 : HCState :=
    { s with consecutiveFailures := 0, retryCount := 0,
             lastSuccessTime := some now, circuitBreakerOpen := false,
             adaptiveInterval := max hcBaseInterval (s.adaptiveInterval * (9 / 10)) }
  if s.errorHistory ≠ [] ∧ healthy = true
  then { s1 with errorHistory := [] } else s1

/-- `HealthCheckManager.onCheckFailure` (main.js lines 685-733): record the
failure, grow the interval multiplicatively (×1.5) capped at five times the
base interval, and open the breaker (recording `openedAt = now`) once
`consecutiveFailures` reaches the threshold. -/
def onCheckFailure (s : HCState) (now : Nat) : HCState :=
  let hist0 := s.errorHistory ++ [now]
  let hist := if hcMaxErrorHistory < hist0.length then hist0.tail else hist0
  let s1 : HCState :=
    { s with consecutiveFailures := s.consecutiveFailures + 1,
             errorHistory := hist,
             adaptiveInterval :=
               min (s.adaptiveInterval * (3 / 2)) (hcBaseInterval * hcCapMultiplier) }
  if hcMaxConsecutiveFailures ≤ s1.consecutiveFailures
  then { s1 with circuitBreakerOpen := true, lastCircuitBreakerReset := some now }
  else s1

/-- One probe cycle, `HealthCheckManager.check` (main.js lines 567-606).
Returns the settled state together with the number of probe attempts issued
(`0` when the cycle is skipped).  A re-entrant call (`isChecking`) and an open
breaker inside its cooldown skip the cycle entirely; an open breaker past its
cooldown is half-open: it is reset before one probe is attempted.  The
`try/catch` means a failing cycle only updates state — `check` is total and
never propagates the failure.  `gateStep` is the breaker gate at the top of
`check` (main.js lines 570-583): `none` means the cycle is skipped. -/
def gateStep (s : HCState) (now : Nat) : Option HCState :=
  if s.circuitBreakerOpen = true then
    match s.lastCircuitBreakerReset with
    | some t =>
      if now - t < hcBreakerTimeout then none
      else some { s with circuitBreakerOpen := false, consecutiveFailures := 0 }
    | none => some { s with circuitBreakerOpen := false, consecutiveFailures := 0 }
  else some s

def check (s : HCState) (now : Nat) (outcomes : Nat → Bool) (healthy : Bool) :
    HCState × Nat :=
  if s.isChecking = true then (s, 0)
  else
    match gateStep s now with
    | none => (s, 0)
    | some s1 =>
      if retrySucceeds outcomes = true
      then (onCheckSuccess s1 now healthy, retryAttempts outcomes)
      else (onCheckFailure s1 now, retryAttempts outcomes)

/-- The inputs of one scheduled cycle: its wall-clock time, the per-attempt
probe outcomes, and whether the success payload reports `healthy`. -/
structure Cycle where
  now : Nat
  outcomes : Nat → Bool
  healthy : Bool

/-- Run a sequence of probe cycles, keeping only the states. -/
def runCycles : HCState → List Cycle → HCState
  | s, [] => s
  | s, c :: cs => runCycles (check s c.now c.outcomes c.healthy).1 cs

/-!
### Service controller (`ServiceManager`, part_000)

The controller keeps its per-service status in the DOM (`data-status`
attributes written by `updateServiceStatus`); the model stores that status
store as an association list.  `startCommandsIssued` logs every POST to
`/api/services/:name/start`.  The command result oracle is `none` for a
network error (the `fetch` throws) and `some r` for a parsed response.
-/

/-- Service status values used by part_000: `'unknown'`, `'stopped'`,
`'starting'`, `'running'`, `'stopping'`. -/
inductive SvcStatus
  | unknown
  | stopped
  | starting
  | running
  | stopping
deriving DecidableEq

/-- The parsed response of a start command (`data.success`). -/
structure CmdResult where
  success : Bool
deriving DecidableEq

/-- Observable `ServiceManager` state: the per-service status store and the
log of issued external start commands. -/
structure SMState where
  statuses : List (String × SvcStatus)
  startCommandsIssued : List String
deriving DecidableEq

/-- Write one service's status (`updateServiceStatus`). -/
def setStatus (l : List (String × SvcStatus)) (name : String) (st : SvcStatus) :
    List (String × SvcStatus) :=
  if l.any (fun p => decide (p.1 = name))
  then l.map (fun p => if p.1 = name then (name, st) else p)
  else l ++ [(name, st)]

/-- Read one service's status. -/
def getStatus (l : List (String × SvcStatus)) (name : String) : Option SvcStatus :=
  (l.find? (fun p => decide (p.1 = name))).map (fun p => p.2)

/-- `ServiceManager.startService` (part_000 lines 137-178): unconditionally
set the status to `'starting'`, issue the external start command, then on
success set `'running'` (returning `true`), on an explicit failure or a
thrown error set `'stopped'` (returning `false`).  There is no guard on the
current status: every call issues the command.  (The success path's
side effects — opening the writing tab and scheduling a confirmatory
`checkServiceStatus` — live outside this state.) -/
def startService (s : SMState) (name : String) (res : Option CmdResult) :
    SMState × Bool :=
  let s1 : SMState := { s with statuses := setStatus s.statuses name SvcStatus.starting }
  let s2 : SMState := { s1 with startCommandsIssued := s1.startCommandsIssued ++ [name] }
  match res with
  | some r =>
    if r.success = true
    then ({ s2 with statuses := setStatus s2.statuses name SvcStatus.running }, true)
    else ({ s2 with statuses := setStatus s2.statuses name SvcStatus.stopped }, false)
  | none => ({ s2 with statuses := setStatus s2.statuses name SvcStatus.stopped }, false)

/-!
### Registry invariant

`Inv` collects the structural facts that hold for every reachable
`TabManager` state: ids are distinct, system keys are distinct, every tab is
either the non-closable welcome tab or a closable system tab for a configured
system with an id counter within `tabCounter`, and the welcome tab is
present.
-/

/-- The fields of a tab that identify it: id, kind, backing system,
closability.  Registry operations other than insertion and removal never
change these. -/
def core (t : Tab) : TabId × TabType × Option String × Bool :=
  (t.id, t.tabType, t.system, t.isClosable)

/-- Well-formedness of one tab relative to the registry counter, keyed by the
shape of its id. -/
def idOk (c : Nat) (t : Tab) : TabId → Prop
  | TabId.welcome =>
      t.tabType = TabType.welcome ∧ t.isClosable = false ∧ t.system = none
  | TabId.sys n k =>
      t.tabType = TabType.system ∧ t.isClosable = true ∧ t.system = some n ∧
      n ∈ portalSystems ∧ 1 ≤ k ∧ k ≤ c

/-- Well-formedness of one tab. -/
def TabOk (c : Nat) (t : Tab) : Prop :=
  idOk c t t.id

instance (c : Nat) (t : Tab) (i : TabId) : Decidable (idOk c t i) := by
  cases i <;> (unfold idOk; exact inferInstance)

instance (c : Nat) (t : Tab) : Decidable (TabOk c t) :=
  inferInstanceAs (Decidable (idOk c t t.id))

/-- The reachable-state invariant of the tab registry. -/
def Inv (s : TMState) : Prop :=
  (s.tabs.map (fun t => t.id)).Nodup ∧
  (s.tabs.map (fun t => t.system)).Nodup ∧
  (∀ t ∈ s.tabs, TabOk s.tabCounter t) ∧
  TabId.welcome ∈ s.tabs.map (fun t => t.id)

instance (s : TMState) : Decidable (Inv s) := by
  unfold Inv
  exact inferInstance

/-- The shape a freshly opened tab takes by the time `openTab` returns:
`openTab` activates the new tab, and `activateTab`'s eager-load step
(`if (!tab.isLoaded && tab.type === 'system') loadTabContent(...)`) has
already set it loading by then. -/
def loadedFresh (systemName : String) (pr : Priority) (now : Nat) (c : Nat) : Tab :=
  { id := TabId.sys systemName c, tabType := TabType.system,
    system := some systemName, isClosable := true, isActive := true,
    status := some TabStatus.loading, createTime := now, lastActiveTime := now,
    isLoaded := true, priority := pr, loadStartTime := some now, loadTime := none }

/-- Example tab T1 of the spec's eviction-order scenario:
`lastActiveAt = 10`, closable, inactive. -/
def exT1 : Tab :=
  { id := TabId.sys "writing" 1, tabType := TabType.system,
    system := some "writing", isClosable := true, isActive := false,
    status := some TabStatus.loaded, createTime := 1, lastActiveTime := 10,
    isLoaded := true, priority := Priority.normal, loadStartTime := none,
    loadTime := none }

/-- Example tab T2: `lastActiveAt = 20`, closable, inactive. -/
def exT2 : Tab :=
  { id := TabId.sys "case2pg" 2, tabType := TabType.system,
    system := some "case2pg", isClosable := true, isActive := false,
    status := some TabStatus.loaded, createTime := 2, lastActiveTime := 20,
    isLoaded := true, priority := Priority.normal, loadStartTime := none,
    loadTime := none }

/-- Example tab T3: `lastActiveAt = 5`, closable, inactive — the oldest. -/
def exT3 : Tab :=
  { id := TabId.sys "censor" 3, tabType := TabType.system,
    system := some "censor", isClosable := true, isActive := false,
    status := some TabStatus.loaded, createTime := 3, lastActiveTime := 5,
    isLoaded := true, priority := Priority.normal, loadStartTime := none,
    loadTime := none }

/-- A health-monitor state whose breaker has just opened at time 0 after
reaching the failure threshold. -/
def hcOpenState : HCState :=
  { hcInit with circuitBreakerOpen := true, consecutiveFailures := 5,
                lastCircuitBreakerReset := some 0 }

/-- A service-controller state in which `censor` is already `Running` and no
start command has been issued yet. -/
def smRunning : SMState :=
  { statuses := [("censor", SvcStatus.running)], startCommandsIssued := [] }

/-- `findTab` returns a tab bearing the requested id. -/
theorem findTab_eq_id {l : List Tab} {i : TabId} {t : Tab}
    (h : findTab l i = some t) : t.id = i := by
  induction l with
  | nil => simp [findTab] at h
  | cons x xs ih =>
    by_cases hx : x.id = i
    · simp only [findTab, if_pos hx] at h
      cases h
      exact hx
    · simp only [findTab, if_neg hx] at h
      exact ih h

/-- `findTab` returns a member of the registry. -/
theorem findTab_mem {l : List Tab} {i : TabId} {t : Tab}
    (h : findTab l i = some t) : t ∈ l := by
  induction l with
  | nil => simp [findTab] at h
  | cons x xs ih =>
    by_cases hx : x.id = i
    · simp only [findTab, if_pos hx] at h
      cases h
      exact List.mem_cons_self _ _
    · simp only [findTab, if_neg hx] at h
      exact List.mem_cons_of_mem _ (ih h)

/-- A present id is found. -/
theorem findTab_isSome_of_mem {l : List Tab} {t : Tab} (ht : t ∈ l) :
    (findTab l t.id).isSome := by
  induction l with
  | nil => cases ht
  | cons x xs ih =>
    by_cases hx : x.id = t.id
    · simp [findTab, hx]
    · rcases List.mem_cons.mp ht with rfl | hmem
      · exact absurd rfl hx
      · simpa [findTab, hx] using ih hmem

/-- Searching past a prefix that misses the id. -/
theorem findTab_append_of_forne {l l2 : List Tab} {i : TabId}
    (h : ∀ t ∈ l, t.id ≠ i) : findTab (l ++ l2) i = findTab l2 i := by
  induction l with
  | nil => rfl
  | cons x xs ih =>
    have hx : x.id ≠ i := h x (List.mem_cons_self _ _)
    simp only [List.cons_append, findTab, if_neg hx]
    exact ih (fun t ht => h t (List.mem_cons_of_mem _ ht))

/-- `findTab` through a map that keeps ids fixed. -/
theorem findTab_map {l : List Tab} {i : TabId} (g : Tab → Tab)
    (hg : ∀ t, (g t).id = t.id) : findTab (l.map g) i = (findTab l i).map g := by
  induction l with
  | nil => rfl
  | cons x xs ih =>
    by_cases hx : x.id = i
    · simp [findTab, hg, hx]
    · simp [findTab, hg, hx, ih]

/-- `findTab` through an id-fixing in-place update of the same id. -/
theorem findTab_updateTab {l : List Tab} {i : TabId} (f : Tab → Tab)
    (hf : ∀ t, (f t).id = t.id) :
    findTab (updateTab l i f) i = (findTab l i).map f := by
  induction l with
  | nil => rfl
  | cons x xs ih =>
    by_cases hx : x.id = i
    · simp [updateTab, findTab, hx, hf]
    · simpa [updateTab, findTab, hx] using ih

/-- Mapping an id-and-core preserving function keeps the core projection of
the registry. -/
theorem map_core_map (l : List Tab) (g : Tab → Tab)
    (hg : ∀ t, core (g t) = core t) : (l.map g).map core = l.map core := by
  induction l with
  | nil => rfl
  | cons x xs ih => simp [hg, ih]

/-- In-place updates with a core-preserving function keep the core projection
of the registry. -/
theorem map_core_updateTab (l : List Tab) (i : TabId) (f : Tab → Tab)
    (hf : ∀ t, core (f t) = core t) : (updateTab l i f).map core = l.map core := by
  unfold updateTab
  apply map_core_map
  intro t
  by_cases h : t.id = i <;> simp [h, hf]

/-- Two states agreeing on tab cores and on the counter. -/
def coreEq (s s' : TMState) : Prop :=
  s'.tabs.map core = s.tabs.map core ∧ s'.tabCounter = s.tabCounter

theorem coreEq_refl (s : TMState) : coreEq s s := ⟨rfl, rfl⟩

theorem coreEq_trans {s1 s2 s3 : TMState} (h12 : coreEq s1 s2) (h23 : coreEq s2 s3) :
    coreEq s1 s3 :=
  ⟨h23.1.trans h12.1, h23.2.trans h12.2⟩

/-- Cores determine ids. -/
theorem map_id_of_map_core {l l' : List Tab} (h : l'.map core = l.map core) :
    l'.map (fun t => t.id) = l.map (fun t => t.id) := by
  have e : ∀ m : List Tab, m.map (fun t => t.id) = (m.map core).map (fun p => p.1) := by
    intro m
    rw [List.map_map]
    rfl
  rw [e, e, h]

/-- Cores determine system keys. -/
theorem map_system_of_map_core {l l' : List Tab} (h : l'.map core = l.map core) :
    l'.map (fun t => t.system) = l.map (fun t => t.system) := by
  have e : ∀ m : List Tab, m.map (fun t => t.system) = (m.map core).map (fun p => p.2.2.1) := by
    intro m
    rw [List.map_map]
    rfl
  rw [e, e, h]

/-- Tab well-formedness only depends on the core. -/
theorem tabOk_of_core {c : Nat} {t t' : Tab} (h : core t' = core t) :
    TabOk c t → TabOk c t' := by
  have h1 : t'.id = t.id := congrArg Prod.fst h
  have h2 : t'.tabType = t.tabType := congrArg (fun p => p.2.1) h
  have h3 : t'.system = t.system := congrArg (fun p => p.2.2.1) h
  have h4 : t'.isClosable = t.isClosable := congrArg (fun p => p.2.2.2) h
  unfold TabOk
  rw [h1]
  cases t.id with
  | welcome =>
    unfold idOk
    rw [h2, h3, h4]
    exact id
  | sys n k =>
    unfold idOk
    rw [h2, h3, h4]
    exact id

/-- Counter monotonicity of tab well-formedness. -/
theorem tabOk_mono {c c' : Nat} (hcc : c ≤ c') {t : Tab} (h : TabOk c t) :
    TabOk c' t := by
  unfold TabOk at h ⊢
  revert h
  cases t.id with
  | welcome => exact id
  | sys n k =>
    intro h
    unfold idOk at h ⊢
    exact ⟨h.1, h.2.1, h.2.2.1, h.2.2.2.1, h.2.2.2.2.1, h.2.2.2.2.2.trans hcc⟩

/-- The invariant transfers along `coreEq`. -/
theorem inv_coreEq {s s' : TMState} (h : coreEq s s') (hi : Inv s) : Inv s' := by
  obtain ⟨hmap, hctr⟩ := h
  obtain ⟨hids, hsys, hok, hwel⟩ := hi
  refine ⟨?_, ?_, ?_, ?_⟩
  · rw [map_id_of_map_core hmap]
    exact hids
  · rw [map_system_of_map_core hmap]
    exact hsys
  · intro t' ht'
    have : core t' ∈ s'.tabs.map core := List.mem_map_of_mem core ht'
    rw [hmap] at this
    obtain ⟨t, ht, hcore⟩ := List.mem_map.mp this
    rw [hctr]
    exact tabOk_of_core hcore.symm (hok t ht)
  · rw [map_id_of_map_core hmap]
    exact hwel

/-- Loading a tab keeps the cores. -/
theorem loadTabContent_coreEq (s : TMState) (i : TabId) (now : Nat) :
    coreEq s (loadTabContent s i now) := by
  unfold loadTabContent
  split
  · exact coreEq_refl s
  · split
    · exact coreEq_refl s
    · exact ⟨map_core_updateTab _ _ _ (fun t => rfl), rfl⟩

/-- The activation bookkeeping keeps the cores. -/
theorem core_deactF (now : Nat) (t : Tab) : core (deactF now t) = core t := by
  unfold deactF
  split
  · rfl
  · rfl

theorem id_deactF (now : Nat) (t : Tab) : (deactF now t).id = t.id := by
  unfold deactF
  split
  · rfl
  · rfl

theorem deactF_of_inactive (now : Nat) {t : Tab} (h : t.isActive = false) :
    deactF now t = t := by
  unfold deactF
  rw [if_neg (by simp [h])]

theorem applyActivation_coreEq (s : TMState) (i : TabId) (now : Nat) :
    coreEq s (applyActivation s i now) := by
  refine ⟨?_, rfl⟩
  show (updateTab (s.tabs.map (deactF now)) i (actF now)).map core = s.tabs.map core
  rw [map_core_updateTab _ i (actF now) (fun t => rfl)]
  exact map_core_map _ (deactF now) (core_deactF now)

/-- Activating a tab keeps the cores. -/
theorem activateTab_coreEq (s : TMState) (i : TabId) (now : Nat) :
    coreEq s (activateTab s i now) := by
  unfold activateTab
  split
  · exact coreEq_refl s
  · split
    · exact coreEq_trans (applyActivation_coreEq s i now)
        (loadTabContent_coreEq (applyActivation s i now) i now)
    · exact applyActivation_coreEq s i now

/-- `activateNextTab` keeps the cores. -/
theorem activateNextTab_coreEq (s : TMState) (now : Nat) :
    coreEq s (activateNextTab s now) := by
  unfold activateNextTab
  split
  · exact activateTab_coreEq s _ now
  · split
    · exact activateTab_coreEq s _ now
    · exact coreEq_refl s

/-- The deferred-load callback keeps the cores. -/
theorem runScheduledLoad_coreEq (s : TMState) (i : TabId) (now : Nat) :
    coreEq s (runScheduledLoad s i now) := by
  unfold runScheduledLoad
  split
  · exact loadTabContent_coreEq s i now
  · exact coreEq_refl s

/-- Under the invariant the registry holds at most five tabs (the welcome tab
plus at most one tab per configured system), far below `maxTabs = 10`. -/
theorem inv_length_le {s : TMState} (hi : Inv s) : s.tabs.length ≤ 5 := by
  obtain ⟨_, hsys, hok, _⟩ := hi
  have hsub : s.tabs.map (fun t => t.system) ⊆
      (none : Option String) :: portalSystems.map some := by
    intro x hx
    obtain ⟨t, ht, rfl⟩ := List.mem_map.mp hx
    have h := hok t ht
    unfold TabOk at h
    revert h
    cases t.id with
    | welcome =>
      intro h
      rw [h.2.2]
      exact List.mem_cons_self _ _
    | sys n k =>
      intro h
      rw [h.2.2.1]
      exact List.mem_cons_of_mem _ (List.mem_map_of_mem some h.2.2.2.1)
  have hlen := (List.subperm_of_subset hsys hsub).length_le
  simpa [portalSystems] using hlen

/-- Closing a tab preserves the invariant. -/
theorem inv_closeTab (s : TMState) (i : TabId) (confirm : Bool) (now : Nat)
    (ans : CloseAnswer) (hi : Inv s) : Inv (closeTab s i confirm now ans) := by
  unfold closeTab
  split
  · exact hi
  · rename_i tab hfind
    split
    · exact hi
    · split
      · exact hi
      · rename_i hclosable hcancel
        have htabmem : tab ∈ s.tabs := findTab_mem hfind
        have htabid : tab.id = i := findTab_eq_id hfind
        have hinotwelcome : i ≠ TabId.welcome := by
          intro hiw
          have h := hi.2.2.1 tab htabmem
          unfold TabOk at h
          rw [htabid, hiw] at h
          exact hclosable h.2.1
        have hremove : Inv (removeTabState s i) := by
          obtain ⟨hids, hsys, hok, hwel⟩ := hi
          have hsubl : List.Sublist (s.tabs.filter (fun t => decide (t.id ≠ i))) s.tabs :=
            List.filter_sublist s.tabs
          refine ⟨?_, ?_, ?_, ?_⟩
          · exact (hsubl.map _).nodup hids
          · exact (hsubl.map _).nodup hsys
          · intro t ht
            exact hok t (List.mem_of_mem_filter ht)
          · obtain ⟨w, hw, hwid⟩ := List.mem_map.mp hwel
            refine List.mem_map.mpr ⟨w, List.mem_filter.mpr ⟨hw, ?_⟩, hwid⟩
            simp only [decide_eq_true_eq]
            rw [hwid]
            exact fun h => hinotwelcome h.symm
        split
        · exact inv_coreEq (activateNextTab_coreEq (removeTabState s i) now) hremove
        · exact hremove

/-- Inserting a fresh tab for an unconfigured-free system key preserves the
invariant. -/
theorem inv_insertFresh (s : TMState) (systemName : String) (pr : Priority)
    (now : Nat) (hkey : systemName ∈ portalSystems)
    (hnone : s.tabs.find? (fun t => decide (t.system = some systemName)) = none)
    (hi : Inv s) :
    Inv { s with
          tabs := s.tabs ++ [freshTab systemName pr now (s.tabCounter + 1)],
          tabCounter := s.tabCounter + 1 } := by
  obtain ⟨hids, hsys, hok, hwel⟩ := hi
  have hfreshid : (TabId.sys systemName (s.tabCounter + 1)) ∉
      s.tabs.map (fun t => t.id) := by
    intro hmem
    obtain ⟨t, ht, hid⟩ := List.mem_map.mp hmem
    have h := hok t ht
    unfold TabOk at h
    rw [hid] at h
    exact absurd h.2.2.2.2.2 (by omega)
  have hfreshsys : (some systemName : Option String) ∉
      s.tabs.map (fun t => t.system) := by
    intro hmem
    obtain ⟨t, ht, hsys'⟩ := List.mem_map.mp hmem
    have := List.find?_eq_none.mp hnone t ht
    simp only [decide_eq_true_eq] at this
    exact this hsys'
  refine ⟨?_, ?_, ?_, ?_⟩
  · rw [List.map_append]
    refine List.Nodup.append hids (List.nodup_singleton _) ?_
    intro x hx hx'
    simp only [List.map_cons, List.map_nil, List.mem_singleton] at hx'
    subst hx'
    exact hfreshid hx
  · rw [List.map_append]
    refine List.Nodup.append hsys (List.nodup_singleton _) ?_
    intro x hx hx'
    simp only [List.map_cons, List.map_nil, List.mem_singleton] at hx'
    subst hx'
    exact hfreshsys hx
  · intro t ht
    rcases List.mem_append.mp ht with hmem | hmem
    · exact tabOk_mono (Nat.le_succ _) (hok t hmem)
    · simp only [List.mem_singleton] at hmem
      subst hmem
      unfold TabOk idOk freshTab
      exact ⟨rfl, rfl, rfl, hkey, by omega, le_refl _⟩
  · rw [List.map_append]
    exact List.mem_append_left _ hwel

/-- Opening a tab preserves the invariant. -/
theorem inv_openTab (s : TMState) (systemName : String) (opts : OpenOptions)
    (now : Nat) (ans : CloseAnswer) (hi : Inv s) :
    Inv (openTab s systemName opts now ans) := by
  unfold openTab
  split
  · exact hi
  · rename_i hkey
    split
    · exact inv_coreEq (activateTab_coreEq s _ now) hi
    · rename_i hnone
      have hcap : ¬ (maxTabs ≤ s.tabs.length) := by
        have := inv_length_le hi
        unfold maxTabs
        omega
      simp only [if_neg hcap]
      have hkey' : systemName ∈ portalSystems := by
        by_contra hc
        exact hkey hc
      have h2 := inv_insertFresh s systemName opts.priority now hkey' hnone hi
      have h3 := inv_coreEq
        (activateTab_coreEq _ (TabId.sys systemName (s.tabCounter + 1)) now) h2
      split
      · exact inv_coreEq (loadTabContent_coreEq _ _ now) h3
      · exact inv_coreEq ⟨rfl, rfl⟩ h3

/-- Every operation preserves the invariant. -/
theorem inv_stepOp (s : TMState) (op : TMOp) (hi : Inv s) : Inv (stepOp s op) := by
  cases op with
  | opOpen systemName opts now ans => exact inv_openTab s systemName opts now ans hi
  | opActivate tabId now => exact inv_coreEq (activateTab_coreEq s tabId now) hi
  | opClose tabId confirmClose now ans => exact inv_closeTab s tabId confirmClose now ans hi
  | opSched tabId now => exact inv_coreEq (runScheduledLoad_coreEq s tabId now) hi

/-- The invariant holds along any run. -/
theorem inv_runOps_of (s : TMState) (ops : List TMOp) (hi : Inv s) :
    Inv (runOps s ops) := by
  induction ops generalizing s with
  | nil => exact hi
  | cons op ops ih => exact ih (stepOp s op) (inv_stepOp s op hi)

/-- The initial state satisfies the invariant. -/
theorem inv_tmInit : Inv tmInit := by decide

/-- Every state reachable from the initial state satisfies the invariant. -/
theorem inv_reachable (ops : List TMOp) : Inv (runOps tmInit ops) :=
  inv_runOps_of tmInit ops inv_tmInit

/-!
### Tracing lemmas for the individual operations
-/

/-- Loading does not change the active tab. -/
theorem loadTabContent_activeTab (s : TMState) (i : TabId) (now : Nat) :
    (loadTabContent s i now).activeTab = s.activeTab := by
  unfold loadTabContent
  split
  · rfl
  · split
    · rfl
    · rfl

/-- Activating a present tab makes it the active tab. -/
theorem activateTab_active {s : TMState} {i : TabId} (now : Nat)
    (h : (findTab s.tabs i).isSome) : (activateTab s i now).activeTab = some i := by
  unfold activateTab
  split
  · rename_i hfind
    rw [hfind] at h
    simp at h
  · split
    · rw [loadTabContent_activeTab]
      rfl
    · rfl

/-- The added id is in the set afterwards. -/
theorem mem_addIfAbsent_self (l : List TabId) (x : TabId) : x ∈ addIfAbsent l x := by
  unfold addIfAbsent
  split
  · assumption
  · exact List.mem_append_right _ (List.mem_singleton.mpr rfl)

/-- Loading an already loaded tab is a no-op. -/
theorem loadTabContent_of_loaded {s : TMState} {i : TabId} {t : Tab} (now : Nat)
    (hfind : findTab s.tabs i = some t) (hl : t.isLoaded = true) :
    loadTabContent s i now = s := by
  simp only [loadTabContent, hfind]
  rw [if_pos (Or.inr hl)]

/-- Where `findTab` lands after the activation bookkeeping: the target tab,
now active and stamped. -/
theorem applyActivation_find {s : TMState} {i : TabId} {tab : Tab} (now : Nat)
    (hfind : findTab s.tabs i = some tab) (hact : tab.isActive = false) :
    findTab (applyActivation s i now).tabs i = some (actF now tab) := by
  show findTab (updateTab (s.tabs.map (deactF now)) i (actF now)) i = some (actF now tab)
  rw [findTab_updateTab (actF now) (fun t => rfl),
      findTab_map (deactF now) (id_deactF now), hfind]
  simp [deactF_of_inactive now hact]

/-- Where `findTab` lands after loading an unloaded system tab. -/
theorem loadTabContent_find {s : TMState} {i : TabId} {tab : Tab} (now : Nat)
    (hfind : findTab s.tabs i = some tab) (hsys : tab.tabType = TabType.system)
    (hnl : tab.isLoaded = false) :
    findTab (loadTabContent s i now).tabs i = some (loadF now tab) := by
  simp only [loadTabContent, hfind]
  rw [if_neg (by simp [hsys, hnl])]
  show findTab (updateTab s.tabs i (loadF now)) i = some (loadF now tab)
  rw [findTab_updateTab (loadF now) (fun t => rfl), hfind]
  rfl

/-- Activating an unloaded system tab reduces to the load after the
activation bookkeeping. -/
theorem activateTab_eq_load {s : TMState} {i : TabId} {tab : Tab} (now : Nat)
    (hfind : findTab s.tabs i = some tab) (hsys : tab.tabType = TabType.system)
    (hnl : tab.isLoaded = false) :
    activateTab s i now = loadTabContent (applyActivation s i now) i now := by
  simp only [activateTab, hfind]
  rw [if_pos ⟨hnl, hsys⟩]

/-- When a welcome-type tab is present (with id `welcome`, as the invariant
guarantees), closing the active tab hands activation to it. -/
theorem activateNextTab_welcome {s : TMState} {c : Nat} (now : Nat)
    (hok : ∀ t ∈ s.tabs, TabOk c t)
    (hwel : TabId.welcome ∈ s.tabs.map (fun t => t.id)) :
    (activateNextTab s now).activeTab = some TabId.welcome := by
  unfold activateNextTab
  cases hf : s.tabs.find? (fun t => decide (t.tabType = TabType.welcome)) with
  | none =>
    exfalso
    obtain ⟨w, hw, hwid⟩ := List.mem_map.mp hwel
    have hnone := List.find?_eq_none.mp hf w hw
    have hok' := hok w hw
    unfold TabOk at hok'
    rw [hwid] at hok'
    exact hnone (by simp [hok'.1])
  | some w =>
    have hwmem : w ∈ s.tabs := List.mem_of_find?_eq_some hf
    have hwtype : w.tabType = TabType.welcome := by
      have := List.find?_some hf
      simpa using this
    have hwid : w.id = TabId.welcome := by
      have hok' := hok w hwmem
      unfold TabOk at hok'
      revert hok'
      cases hcase : w.id with
      | welcome => intro _; rfl
      | sys n k =>
        intro hok'
        unfold idOk at hok'
        rw [hwtype] at hok'
        exact absurd hok'.1 (by simp)
    rw [← hwid]
    exact activateTab_active now (by rw [← hwid] at *; exact findTab_isSome_of_mem hwmem)

/-- A duplicate-free system-key projection bounds the number of tabs backed
by any one system. -/
theorem filter_system_le_one {l : List Tab}
    (h : (l.map (fun t => t.system)).Nodup) (key : String) :
    (l.filter (fun t => decide (t.system = some key))).length ≤ 1 := by
  induction l with
  | nil => simp
  | cons x xs ih =>
    simp only [List.map_cons, List.nodup_cons] at h
    by_cases hx : x.system = some key
    · have hempty : xs.filter (fun t => decide (t.system = some key)) = [] := by
        rw [List.filter_eq_nil_iff]
        intro t ht
        simp only [decide_eq_true_eq]
        intro hts
        exact h.1 (List.mem_map.mpr ⟨t, ht, by rw [hts, ← hx]⟩)
      rw [List.filter_cons_of_pos (by simp [hx]), hempty]
      simp
    · rw [List.filter_cons_of_neg (by simp [hx])]
      exact ih h.2

/-!
### The eviction selection loop
-/

/-- Loop invariant and postcondition of `closeOldestInactiveTab`'s selection
fold: the accumulator holds the strictly oldest closable inactive candidate
seen so far (or nothing, with the bound still at the initial `now`), the
bound only decreases, and the final bound is below every candidate's
`lastActiveTime`. -/
theorem selStep_fold_spec (now0 : Nat) (l : List Tab) :
    ∀ (o : Option Tab) (b : Nat),
    (o = none → b = now0) →
    (∀ u, o = some u → u.isClosable = true ∧ u.isActive = false ∧
        u.lastActiveTime = b ∧ b < now0) →
    ((l.foldl selStep (o, b)).1 = none → (l.foldl selStep (o, b)).2 = now0) ∧
    (∀ u, (l.foldl selStep (o, b)).1 = some u → u.isClosable = true ∧
        u.isActive = false ∧ u.lastActiveTime = (l.foldl selStep (o, b)).2 ∧
        (l.foldl selStep (o, b)).2 < now0) ∧
    (l.foldl selStep (o, b)).2 ≤ b ∧
    (∀ c ∈ l, c.isClosable = true → c.isActive = false →
        (l.foldl selStep (o, b)).2 ≤ c.lastActiveTime) := by
  induction l with
  | nil =>
    intro o b h1 h2
    exact ⟨h1, h2, le_refl _, by intro c hc; cases hc⟩
  | cons x xs ih =>
    intro o b h1 h2
    have hble : b ≤ now0 := by
      cases o with
      | none => exact (h1 rfl).le
      | some u => exact (h2 u rfl).2.2.2.le
    rw [List.foldl_cons]
    by_cases hx : x.isClosable = true ∧ x.isActive = false ∧ x.lastActiveTime < b
    · have hstep : selStep (o, b) x = (some x, x.lastActiveTime) := by
        unfold selStep
        rw [if_pos hx]
      rw [hstep]
      have hxnow : x.lastActiveTime < now0 := lt_of_lt_of_le hx.2.2 hble
      have H := ih (some x) x.lastActiveTime (by intro h; cases h)
        (by intro u hu; cases hu; exact ⟨hx.1, hx.2.1, rfl, hxnow⟩)
      refine ⟨H.1, H.2.1, le_trans H.2.2.1 hx.2.2.le, ?_⟩
      intro c hc hcc hca
      rcases List.mem_cons.mp hc with rfl | hmem
      · exact H.2.2.1
      · exact H.2.2.2 c hmem hcc hca
    · have hstep : selStep (o, b) x = (o, b) := by
        unfold selStep
        rw [if_neg hx]
      rw [hstep]
      have H := ih o b h1 h2
      refine ⟨H.1, H.2.1, H.2.2.1, ?_⟩
      intro c hc hcc hca
      rcases List.mem_cons.mp hc with rfl | hmem
      · have hnlt : ¬ c.lastActiveTime < b := fun hlt => hx ⟨hcc, hca, hlt⟩
        exact le_trans H.2.2.1 (not_lt.mp hnlt)
      · exact H.2.2.2 c hmem hcc hca

/-- Soundness and minimality of the eviction selection: any selected tab is a
closable inactive tab strictly older than `now` whose `lastActiveTime` is
minimal among all closable inactive tabs. -/
theorem closeOldestSelect_spec {tabs : List Tab} {now : Nat} {t : Tab}
    (h : closeOldestSelect tabs now = some t) :
    t.isClosable = true ∧ t.isActive = false ∧ t.lastActiveTime < now ∧
    ∀ c ∈ tabs, c.isClosable = true → c.isActive = false →
      t.lastActiveTime ≤ c.lastActiveTime := by
  have H := selStep_fold_spec now tabs none now (fun _ => rfl)
    (by intro u hu; cases hu)
  have h2 := H.2.1 t h
  refine ⟨h2.1, h2.2.1, ?_, ?_⟩
  · rw [h2.2.2.1]
    exact h2.2.2.2
  · intro c hc hcc hca
    rw [h2.2.2.1]
    exact H.2.2.2 c hc hcc hca

/-!
### Health monitor lemmas
-/

theorem onCheckSuccess_fields (s : HCState) (now : Nat) (hb : Bool) :
    (onCheckSuccess s now hb).consecutiveFailures = 0 ∧
    (onCheckSuccess s now hb).circuitBreakerOpen = false ∧
    (onCheckSuccess s now hb).adaptiveInterval =
      max hcBaseInterval (s.adaptiveInterval * (9 / 10)) ∧
    (onCheckSuccess s now hb).isChecking = s.isChecking := by
  unfold onCheckSuccess
  split
  · exact ⟨rfl, rfl, rfl, rfl⟩
  · exact ⟨rfl, rfl, rfl, rfl⟩

theorem onCheckFailure_fields (s : HCState) (now : Nat) :
    (onCheckFailure s now).consecutiveFailures = s.consecutiveFailures + 1 ∧
    (onCheckFailure s now).adaptiveInterval =
      min (s.adaptiveInterval * (3 / 2)) (hcBaseInterval * hcCapMultiplier) ∧
    (onCheckFailure s now).isChecking = s.isChecking ∧
    (onCheckFailure s now).circuitBreakerOpen =
      (if hcMaxConsecutiveFailures ≤ s.consecutiveFailures + 1 then true
       else s.circuitBreakerOpen) := by
  unfold onCheckFailure
  by_cases h : hcMaxConsecutiveFailures ≤ s.consecutiveFailures + 1
  · rw [if_pos h, if_pos h]
    exact ⟨rfl, rfl, rfl, rfl⟩
  · rw [if_neg h, if_neg h]
    exact ⟨rfl, rfl, rfl, rfl⟩

/-- A cycle invoked while the breaker is open inside its cooldown window is
skipped entirely: no probe is issued and the state is untouched. -/
theorem check_skip (s : HCState) (now t : Nat) (outcomes : Nat → Bool) (hb : Bool)
    (hchk : s.isChecking = false) (hopen : s.circuitBreakerOpen = true)
    (hreset : s.lastCircuitBreakerReset = some t)
    (hcool : now - t < hcBreakerTimeout) :
    check s now outcomes hb = (s, 0) := by
  simp [check, gateStep, hchk, hopen, hreset, hcool]

/-- A cycle with a closed breaker runs the probe and dispatches on its
outcome. -/
theorem check_closed_run (s : HCState) (now : Nat) (outcomes : Nat → Bool) (hb : Bool)
    (hchk : s.isChecking = false) (hopen : s.circuitBreakerOpen = false) :
    check s now outcomes hb =
      if retrySucceeds outcomes = true
      then (onCheckSuccess s now hb, retryAttempts outcomes)
      else (onCheckFailure s now, retryAttempts outcomes) := by
  simp [check, gateStep, hchk, hopen]

/-- A cycle with an open breaker past its cooldown resets the breaker
(half-open) and probes. -/
theorem check_halfopen_run (s : HCState) (now t : Nat) (outcomes : Nat → Bool) (hb : Bool)
    (hchk : s.isChecking = false) (hopen : s.circuitBreakerOpen = true)
    (hreset : s.lastCircuitBreakerReset = some t)
    (hcool : ¬ (now - t < hcBreakerTimeout)) :
    check s now outcomes hb =
      (if retrySucceeds outcomes = true
       then (onCheckSuccess { s with circuitBreakerOpen := false, consecutiveFailures := 0 } now hb,
             retryAttempts outcomes)
       else (onCheckFailure { s with circuitBreakerOpen := false, consecutiveFailures := 0 } now,
             retryAttempts outcomes)) := by
  simp [check, gateStep, hchk, hopen, hreset, hcool]

/-- Degenerate half-open case: breaker open but `openedAt` never recorded. -/
theorem check_halfopen_none (s : HCState) (now : Nat) (outcomes : Nat → Bool) (hb : Bool)
    (hchk : s.isChecking = false) (hopen : s.circuitBreakerOpen = true)
    (hreset : s.lastCircuitBreakerReset = none) :
    check s now outcomes hb =
      (if retrySucceeds outcomes = true
       then (onCheckSuccess { s with circuitBreakerOpen := false, consecutiveFailures := 0 } now hb,
             retryAttempts outcomes)
       else (onCheckFailure { s with circuitBreakerOpen := false, consecutiveFailures := 0 } now,
             retryAttempts outcomes)) := by
  simp [check, gateStep, hchk, hopen, hreset]

/-- Running nothing but failing cycles from a closed breaker opens the
breaker exactly when the failure count reaches the threshold. -/
theorem fail_run : ∀ (ts : List Nat), ts ≠ [] → ∀ (s : HCState),
    s.isChecking = false → s.circuitBreakerOpen = false →
    s.consecutiveFailures + ts.length = hcMaxConsecutiveFailures →
    (runCycles s (ts.map (fun t => ⟨t, fun _ => false, false⟩))).circuitBreakerOpen = true := by
  intro ts
  induction ts with
  | nil => intro h; exact absurd rfl h
  | cons t rest ih =>
    intro _ s hchk hopen hcf
    have hfail : retrySucceeds (fun _ => false) = false := rfl
    have hstep := check_closed_run s t (fun _ => false) false hchk hopen
    rw [hfail, if_neg (by simp)] at hstep
    rw [List.map_cons]
    show (runCycles (check s t (fun _ => false) false).1 _).circuitBreakerOpen = true
    rw [hstep]
    have hf := onCheckFailure_fields s t
    have h5 : hcMaxConsecutiveFailures = 5 := rfl
    rcases rest with _ | ⟨t2, rest2⟩
    · simp only [List.map_nil]
      show (onCheckFailure s t).circuitBreakerOpen = true
      rw [hf.2.2.2, if_pos (by simp only [List.length_cons, List.length_nil] at hcf; omega)]
    · have hlen : s.consecutiveFailures + (t :: t2 :: rest2).length =
          hcMaxConsecutiveFailures := hcf
      simp only [List.length_cons] at hlen
      apply ih (by simp) (onCheckFailure s t)
      · rw [hf.2.2.1]
        exact hchk
      · rw [hf.2.2.2, if_neg (by rw [h5]; omega), hopen]
      · rw [hf.1]
        simp only [List.length_cons]
        omega

/-- A successful probe (whenever a probe is issued at all) resets the failure
count and closes the breaker. -/
theorem check_success_resets (s : HCState) (now : Nat) (outcomes : Nat → Bool) (hb : Bool)
    (hchk : s.isChecking = false)
    (hgate : s.circuitBreakerOpen = true → ∀ t, s.lastCircuitBreakerReset = some t →
        hcBreakerTimeout ≤ now - t)
    (hsucc : retrySucceeds outcomes = true) :
    (check s now outcomes hb).1.consecutiveFailures = 0 ∧
    (check s now outcomes hb).1.circuitBreakerOpen = false := by
  by_cases hopen : s.circuitBreakerOpen = true
  · cases hreset : s.lastCircuitBreakerReset with
    | some t =>
      have hc := hgate hopen t hreset
      rw [check_halfopen_run s now t outcomes hb hchk hopen hreset (not_lt.mpr hc),
          if_pos hsucc]
      have H := onCheckSuccess_fields
        { s with circuitBreakerOpen := false, consecutiveFailures := 0 } now hb
      exact ⟨H.1, H.2.1⟩
    | none =>
      rw [check_halfopen_none s now outcomes hb hchk hopen hreset, if_pos hsucc]
      have H := onCheckSuccess_fields
        { s with circuitBreakerOpen := false, consecutiveFailures := 0 } now hb
      exact ⟨H.1, H.2.1⟩
  · have hopen' : s.circuitBreakerOpen = false := by simpa using hopen
    rw [check_closed_run s now outcomes hb hchk hopen', if_pos hsucc]
    have H := onCheckSuccess_fields s now hb
    exact ⟨H.1, H.2.1⟩

/-- The gate never changes the adaptive interval. -/
theorem gateStep_interval (s : HCState) (now : Nat) (s1 : HCState)
    (h : gateStep s now = some s1) : s1.adaptiveInterval = s.adaptiveInterval := by
  unfold gateStep at h
  split at h
  · split at h
    · split at h
      · cases h
      · rw [← Option.some.inj h]
    · rw [← Option.some.inj h]
  · rw [← Option.some.inj h]

/-- One cycle keeps the adaptive interval within
`[baseMs, baseMs * capMultiplier]`. -/
theorem interval_step (s : HCState) (c : Cycle)
    (h1 : hcBaseInterval ≤ s.adaptiveInterval)
    (h2 : s.adaptiveInterval ≤ hcBaseInterval * hcCapMultiplier) :
    hcBaseInterval ≤ (check s c.now c.outcomes c.healthy).1.adaptiveInterval ∧
    (check s c.now c.outcomes c.healthy).1.adaptiveInterval ≤
      hcBaseInterval * hcCapMultiplier := by
  have hbpos : (0 : ℚ) < hcBaseInterval := by norm_num [hcBaseInterval]
  have hbc : hcBaseInterval ≤ hcBaseInterval * hcCapMultiplier := by
    norm_num [hcBaseInterval, hcCapMultiplier]
  have hcap : (0 : ℚ) ≤ hcBaseInterval * hcCapMultiplier := by
    norm_num [hcBaseInterval, hcCapMultiplier]
  unfold check
  split
  · exact ⟨h1, h2⟩
  · cases hg : gateStep s c.now with
    | none => exact ⟨h1, h2⟩
    | some s1 =>
      have hs1 : s1.adaptiveInterval = s.adaptiveInterval := gateStep_interval s c.now s1 hg
      show hcBaseInterval ≤ (if retrySucceeds c.outcomes = true
            then (onCheckSuccess s1 c.now c.healthy, retryAttempts c.outcomes)
            else (onCheckFailure s1 c.now, retryAttempts c.outcomes)).1.adaptiveInterval ∧
          (if retrySucceeds c.outcomes = true
            then (onCheckSuccess s1 c.now c.healthy, retryAttempts c.outcomes)
            else (onCheckFailure s1 c.now, retryAttempts c.outcomes)).1.adaptiveInterval ≤
            hcBaseInterval * hcCapMultiplier
      by_cases hr : retrySucceeds c.outcomes = true
      · rw [if_pos hr]
        show hcBaseInterval ≤ (onCheckSuccess s1 c.now c.healthy).adaptiveInterval ∧
            (onCheckSuccess s1 c.now c.healthy).adaptiveInterval ≤
              hcBaseInterval * hcCapMultiplier
        rw [(onCheckSuccess_fields s1 c.now c.healthy).2.2.1, hs1]
        constructor
        · exact le_max_left _ _
        · apply max_le hbc
          linarith [h2, hcap]
      · rw [if_neg hr]
        show hcBaseInterval ≤ (onCheckFailure s1 c.now).adaptiveInterval ∧
            (onCheckFailure s1 c.now).adaptiveInterval ≤ hcBaseInterval * hcCapMultiplier
        rw [(onCheckFailure_fields s1 c.now).2.1, hs1]
        constructor
        · apply le_min _ hbc
          linarith [h1, hbpos]
        · exact min_le_right _ _

/-- Interval bounds are preserved along any run. -/
theorem interval_run (cs : List Cycle) : ∀ (s : HCState),
    hcBaseInterval ≤ s.adaptiveInterval →
    s.adaptiveInterval ≤ hcBaseInterval * hcCapMultiplier →
    hcBaseInterval ≤ (runCycles s cs).adaptiveInterval ∧
    (runCycles s cs).adaptiveInterval ≤ hcBaseInterval * hcCapMultiplier := by
  induction cs with
  | nil => intro s h1 h2; exact ⟨h1, h2⟩
  | cons c cs ih =>
    intro s h1 h2
    have H := interval_step s c h1 h2
    exact ih _ H.1 H.2

/-- Every cycle issues at most `maxRetries + 1` probe attempts. -/
theorem retryAttempts_le (outcomes : Nat → Bool) :
    retryAttempts outcomes ≤ hcMaxRetries + 1 := by
  unfold retryAttempts
  cases hf : (List.range (hcMaxRetries + 1)).find? (fun k => outcomes k) with
  | none => exact le_refl _
  | some k =>
    have hk := List.mem_of_find?_eq_some hf
    rw [List.mem_range] at hk
    show k + 1 ≤ hcMaxRetries + 1
    omega

/-- The cycle fails exactly when every one of the `maxRetries + 1` attempts
fails. -/
theorem retrySucceeds_false_iff (outcomes : Nat → Bool) :
    retrySucceeds outcomes = false ↔ ∀ k, k ≤ hcMaxRetries → outcomes k = false := by
  constructor
  · intro h k hk
    cases hf : (List.range (hcMaxRetries + 1)).find? (fun j => outcomes j) with
    | none =>
      have := List.find?_eq_none.mp hf k (List.mem_range.mpr (by omega))
      simpa using this
    | some j =>
      unfold retrySucceeds at h
      rw [hf] at h
      cases h
  · intro hall
    unfold retrySucceeds
    cases hf : (List.range (hcMaxRetries + 1)).find? (fun j => outcomes j) with
    | none => rfl
    | some j =>
      exfalso
      have hj := List.mem_of_find?_eq_some hf
      have hp := List.find?_some hf
      rw [List.mem_range] at hj
      rw [hall j (by omega)] at hp
      cases hp

/-- A failing cycle has exhausted all `maxRetries + 1` attempts. -/
theorem retryAttempts_of_fail (outcomes : Nat → Bool)
    (h : retrySucceeds outcomes = false) :
    retryAttempts outcomes = hcMaxRetries + 1 := by
  unfold retrySucceeds at h
  unfold retryAttempts
  cases hf : (List.range (hcMaxRetries + 1)).find? (fun k => outcomes k) with
  | none => rfl
  | some k =>
    rw [hf] at h
    cases h

/-- A failing cycle either skips (breaker open / re-entrant) or aborts only
after issuing every attempt; `check` returns in both cases. -/
theorem check_fail_attempts (s : HCState) (now : Nat) (outcomes : Nat → Bool) (hb : Bool)
    (hchk : s.isChecking = false) (h : retrySucceeds outcomes = false) :
    (check s now outcomes hb).2 = 0 ∨
    (check s now outcomes hb).2 = hcMaxRetries + 1 := by
  unfold check
  rw [if_neg (by simp [hchk])]
  cases hg : gateStep s now with
  | none => exact Or.inl rfl
  | some s1 =>
    right
    show (if retrySucceeds outcomes = true
        then (onCheckSuccess s1 now hb, retryAttempts outcomes)
        else (onCheckFailure s1 now, retryAttempts outcomes)).2 = hcMaxRetries + 1
    rw [h, if_neg (by simp)]
    exact retryAttempts_of_fail outcomes h

/-!
### Opening a tab: the two `openTab` paths
-/

theorem findTab_singleton (t : Tab) (i : TabId) (h : t.id = i) :
    findTab [t] i = some t := by
  unfold findTab
  rw [if_pos h]

/-- `openTab` on a system that already has a tab reduces to activating it. -/
theorem openTab_existing_activates (s : TMState) (systemName : String)
    (opts : OpenOptions) (now : Nat) (ans : CloseAnswer) (t0 : Tab)
    (hex : s.tabs.find? (fun t => decide (t.system = some systemName)) = some t0)
    (hkey : systemName ∈ portalSystems) :
    (openTab s systemName opts now ans).tabs.map (fun t => t.id) =
      s.tabs.map (fun t => t.id) ∧
    (openTab s systemName opts now ans).activeTab = some t0.id := by
  have heq : openTab s systemName opts now ans = activateTab s t0.id now := by
    unfold openTab
    rw [if_neg (not_not_intro hkey), hex]
  rw [heq]
  exact ⟨map_id_of_map_core (activateTab_coreEq s t0.id now).1,
    activateTab_active now (findTab_isSome_of_mem (List.mem_of_find?_eq_some hex))⟩

/-- The shape `openTab` takes on the fresh-tab path when the registry is
below capacity. -/
theorem openTab_new_eq (s : TMState) (systemName : String) (opts : OpenOptions)
    (now : Nat) (ans : CloseAnswer) (hkey : systemName ∈ portalSystems)
    (hnone : s.tabs.find? (fun t => decide (t.system = some systemName)) = none)
    (hcap : ¬ (maxTabs ≤ s.tabs.length)) :
    openTab s systemName opts now ans =
      (if opts.priority = Priority.high ∨ opts.immediate = true
       then loadTabContent
          (activateTab
            { s with
              tabs := s.tabs ++ [freshTab systemName opts.priority now (s.tabCounter + 1)],
              tabCounter := s.tabCounter + 1 }
            (TabId.sys systemName (s.tabCounter + 1)) now)
          (TabId.sys systemName (s.tabCounter + 1)) now
       else
        { (activateTab
            { s with
              tabs := s.tabs ++ [freshTab systemName opts.priority now (s.tabCounter + 1)],
              tabCounter := s.tabCounter + 1 }
            (TabId.sys systemName (s.tabCounter + 1)) now) with
          lazyLoadQueue := addIfAbsent
            (activateTab
              { s with
                tabs := s.tabs ++ [freshTab systemName opts.priority now (s.tabCounter + 1)],
                tabCounter := s.tabCounter + 1 }
              (TabId.sys systemName (s.tabCounter + 1)) now).lazyLoadQueue
            (TabId.sys systemName (s.tabCounter + 1)) }) := by
  unfold openTab
  rw [if_neg (not_not_intro hkey), hnone, if_neg hcap]

/-!
### Claim theorems
-/

/-- Claim C1 (confirmed).  For every sequence of tab-registry operations —
in particular every sequence of `openTab` calls — the registry size after
each call is at most `maxTabs`.  (Only four systems are configured, and keys
are unique, so the registry never exceeds five tabs, below `maxTabs = 10`.) -/
theorem claim_capacity_invariant (ops : List TMOp) :
    (runOps tmInit ops).tabs.length ≤ maxTabs := by
  have h := inv_length_le (inv_reachable ops)
  unfold maxTabs
  omega

/-- Claim C4 (confirmed).  At most one tab per `systemKey` exists at any
reachable state, and `openTab` on a key that already has a tab activates the
existing tab (its id becomes the active tab) and creates no new tab (the
registry's id list is unchanged). -/
theorem claim_system_uniqueness :
    (∀ (ops : List TMOp) (key : String),
      ((runOps tmInit ops).tabs.filter
          (fun t => decide (t.system = some key))).length ≤ 1) ∧
    (∀ (s : TMState) (systemName : String) (opts : OpenOptions) (now : Nat)
        (ans : CloseAnswer) (t0 : Tab),
      s.tabs.find? (fun t => decide (t.system = some systemName)) = some t0 →
      systemName ∈ portalSystems →
      (openTab s systemName opts now ans).tabs.map (fun t => t.id) =
        s.tabs.map (fun t => t.id) ∧
      (openTab s systemName opts now ans).activeTab = some t0.id) := by
  constructor
  · intro ops key
    exact filter_system_le_one (inv_reachable ops).2.1 key
  · intro s systemName opts now ans t0 hex hkey
    exact openTab_existing_activates s systemName opts now ans t0 hex hkey

/-- Witness for claim C4: re-opening `writing` after it is already open
leaves the registry's ids unchanged and activates the existing tab. -/
theorem claim_system_uniqueness_witness :
    (openTab exOpened "writing" { priority := Priority.normal, immediate := false } 2
        CloseAnswer.closeOnly).tabs.map (fun t => t.id) =
      exOpened.tabs.map (fun t => t.id) ∧
    (openTab exOpened "writing" { priority := Priority.normal, immediate := false } 2
        CloseAnswer.closeOnly).activeTab =
      some (loadedFresh "writing" Priority.normal 1 1).id :=
  claim_system_uniqueness.2 exOpened "writing"
    { priority := Priority.normal, immediate := false } 2 CloseAnswer.closeOnly
    (loadedFresh "writing" Priority.normal 1 1) (by decide) (by decide)

/-- Claim C7 (confirmed).  The eviction selection of
`closeOldestInactiveTab` — invoked by `openTab` at capacity — picks a
closable, inactive tab of minimal `lastActiveAt` (strictly older than the
call instant), the selected tab is the one closed, and on the spec's
scenario T1(10), T2(20), T3(5) it picks T3. -/
theorem claim_eviction_order :
    (∀ (tabs : List Tab) (now : Nat) (t : Tab),
      closeOldestSelect tabs now = some t →
      t.isClosable = true ∧ t.isActive = false ∧ t.lastActiveTime < now ∧
      ∀ c ∈ tabs, c.isClosable = true → c.isActive = false →
        t.lastActiveTime ≤ c.lastActiveTime) ∧
    (∀ (s : TMState) (now : Nat) (ans : CloseAnswer) (t : Tab),
      closeOldestSelect s.tabs now = some t →
      closeOldestInactiveTab s now ans = closeTab s t.id true now ans) ∧
    closeOldestSelect [exT1, exT2, exT3] 100 = some exT3 := by
  refine ⟨fun tabs now t h => closeOldestSelect_spec h, ?_, by decide⟩
  intro s now ans t h
  unfold closeOldestInactiveTab
  rw [h]

/-- Witness for claim C7: on the T1/T2/T3 scenario the selected tab T3 is
closable, inactive, and oldest. -/
theorem claim_eviction_order_witness :
    exT3.isClosable = true ∧ exT3.isActive = false ∧ exT3.lastActiveTime < 100 ∧
    ∀ c ∈ [exT1, exT2, exT3], c.isClosable = true → c.isActive = false →
      exT3.lastActiveTime ≤ c.lastActiveTime :=
  claim_eviction_order.1 [exT1, exT2, exT3] 100 exT3 (by decide)

/-- Claim C10 (confirmed).  `openTab` on a system key missing from
`PortalConfig.systems` is a no-op: no exception (the model is a total
function), no new tab, registry and active tab unchanged. -/
theorem claim_unknown_system_noop (s : TMState) (systemName : String)
    (opts : OpenOptions) (now : Nat) (ans : CloseAnswer)
    (h : systemName ∉ portalSystems) :
    openTab s systemName opts now ans = s := by
  unfold openTab
  rw [if_pos h]

/-- Witness for claim C10: `meeting_minutes` is a managed service but not a
configured system, and opening it changes nothing. -/
theorem claim_unknown_system_noop_witness :
    "meeting_minutes" ∉ portalSystems ∧
    openTab tmInit "meeting_minutes" { priority := Priority.normal, immediate := false }
        3 CloseAnswer.cancel = tmInit :=
  ⟨by decide,
   claim_unknown_system_noop tmInit "meeting_minutes"
     { priority := Priority.normal, immediate := false } 3 CloseAnswer.cancel (by decide)⟩

/-- Claim C5 (confirmed).  After `failureThreshold` (= 5) consecutive failed
cycles from a clean state the breaker is open; any cycle invoked while the
breaker is open within `cooldownMs` of `openedAt` issues no probe and leaves
the state untouched; and any cycle whose probe runs and succeeds resets
`consecutiveFailures` to 0 and closes the breaker. -/
theorem claim_breaker_correctness :
    (∀ (s : HCState) (ts : List Nat),
      s.isChecking = false → s.circuitBreakerOpen = false →
      s.consecutiveFailures = 0 → ts.length = hcMaxConsecutiveFailures →
      (runCycles s (ts.map (fun t => ⟨t, fun _ => false, false⟩))).circuitBreakerOpen
        = true) ∧
    (∀ (s : HCState) (now t : Nat) (outcomes : Nat → Bool) (hb : Bool),
      s.isChecking = false → s.circuitBreakerOpen = true →
      s.lastCircuitBreakerReset = some t → now - t < hcBreakerTimeout →
      check s now outcomes hb = (s, 0)) ∧
    (∀ (s : HCState) (now : Nat) (outcomes : Nat → Bool) (hb : Bool),
      s.isChecking = false →
      (s.circuitBreakerOpen = true → ∀ t, s.lastCircuitBreakerReset = some t →
        hcBreakerTimeout ≤ now - t) →
      retrySucceeds outcomes = true →
      (check s now outcomes hb).1.consecutiveFailures = 0 ∧
      (check s now outcomes hb).1.circuitBreakerOpen = false) := by
  refine ⟨?_, check_skip, check_success_resets⟩
  intro s ts h1 h2 h3 hlen
  apply fail_run ts ?nonempty s h1 h2
  · rw [h3, hlen]
    omega
  case nonempty =>
    intro hnil
    rw [hnil] at hlen
    exact absurd hlen.symm (by decide)

/-- Witness for claim C5 at concrete inputs: five failing cycles open the
breaker; a cycle at time 10000 against a breaker opened at 0 is skipped; a
successful probe from the initial state resets and closes. -/
theorem claim_breaker_correctness_witness :
    (runCycles hcInit ([0, 1, 2, 3, 4].map
        (fun t => ⟨t, fun _ => false, false⟩))).circuitBreakerOpen = true ∧
    check hcOpenState 10000 (fun _ => false) false = (hcOpenState, 0) ∧
    ((check hcInit 50 (fun _ => true) true).1.consecutiveFailures = 0 ∧
      (check hcInit 50 (fun _ => true) true).1.circuitBreakerOpen = false) :=
  ⟨claim_breaker_correctness.1 hcInit [0, 1, 2, 3, 4] rfl rfl rfl rfl,
   claim_breaker_correctness.2.1 hcOpenState 10000 0 (fun _ => false) false rfl rfl rfl
     (by decide),
   claim_breaker_correctness.2.2 hcInit 50 (fun _ => true) true rfl
     (fun h => absurd h (by decide)) rfl⟩

/-- Claim C6 (confirmed).  For every sequence of probe cycles the adaptive
polling interval stays within `[baseMs, baseMs * capMultiplier]`: success
shrinks it ×0.9 floored at `baseMs`, failure grows it ×1.5 capped at
`baseMs * 5`. -/
theorem claim_interval_bounds (cs : List Cycle) :
    hcBaseInterval ≤ (runCycles hcInit cs).adaptiveInterval ∧
    (runCycles hcInit cs).adaptiveInterval ≤ hcBaseInterval * hcCapMultiplier := by
  apply interval_run
  · exact le_refl _
  · show hcBaseInterval ≤ hcBaseInterval * hcCapMultiplier
    norm_num [hcBaseInterval, hcCapMultiplier]

/-- Claim C8 counterexample.  The claim says a cycle issues up to
`maxRetries` attempts; the loop `for (attempt = 0; attempt <= maxRetries;
attempt++)` issues `maxRetries + 1 = 4` attempts when every attempt fails,
as this concrete all-failing cycle shows. -/
theorem claim_retry_counterexample :
    (check hcInit 0 (fun _ => false) false).2 = hcMaxRetries + 1 ∧
    ¬ ((check hcInit 0 (fun _ => false) false).2 ≤ hcMaxRetries) :=
  ⟨rfl, by decide⟩

/-- Claim C8 (amended).  Each cycle issues at most `maxRetries + 1` probe
attempts (one initial plus up to `maxRetries` retries); it aborts as failed
exactly when all `maxRetries + 1` attempts fail, in which case all of them
were issued; retry attempt `k` is delayed by `retryBaseMs * 2 ^ (k - 1)`
(concretely 1000, 2000, 4000 ms); and a failing cycle returns normally —
either skipped with no probe or after every attempt — updating state only. -/
theorem claim_retry_amended :
    (∀ outcomes : Nat → Bool, retryAttempts outcomes ≤ hcMaxRetries + 1) ∧
    (∀ outcomes : Nat → Bool,
      (retrySucceeds outcomes = false ↔ ∀ k, k ≤ hcMaxRetries → outcomes k = false)) ∧
    (∀ outcomes : Nat → Bool, retrySucceeds outcomes = false →
      retryAttempts outcomes = hcMaxRetries + 1) ∧
    (∀ k, 1 ≤ k → retryWait k = hcRetryDelay * 2 ^ (k - 1)) ∧
    cycleDelays (fun _ => false) = [1000, 2000, 4000] ∧
    (∀ (s : HCState) (now : Nat) (outcomes : Nat → Bool) (hb : Bool),
      s.isChecking = false → retrySucceeds outcomes = false →
      (check s now outcomes hb).2 = 0 ∨
      (check s now outcomes hb).2 = hcMaxRetries + 1) := by
  refine ⟨retryAttempts_le, retrySucceeds_false_iff, retryAttempts_of_fail, ?_, ?_,
    check_fail_attempts⟩
  · intro k _
    rfl
  · decide

/-- Witness for claim C8 at concrete inputs. -/
theorem claim_retry_amended_witness :
    retryAttempts (fun _ => false) ≤ hcMaxRetries + 1 ∧
    retryAttempts (fun _ => false) = hcMaxRetries + 1 ∧
    retryWait 2 = hcRetryDelay * 2 ^ (2 - 1) ∧
    ((check hcInit 0 (fun _ => false) false).2 = 0 ∨
      (check hcInit 0 (fun _ => false) false).2 = hcMaxRetries + 1) :=
  ⟨claim_retry_amended.1 (fun _ => false),
   claim_retry_amended.2.2.1 (fun _ => false) rfl,
   claim_retry_amended.2.2.2.1 2 (by decide),
   claim_retry_amended.2.2.2.2.2 hcInit 0 (fun _ => false) false rfl rfl⟩

/-- Claim C2 counterexample.  `startService` has no Running guard: with
`censor` already `Running`, two `Start` calls issue two external start
commands, not at most one. -/
theorem claim_idempotent_start_counterexample :
    getStatus smRunning.statuses "censor" = some SvcStatus.running ∧
    ((startService (startService smRunning "censor" (some { success := true })).1
        "censor" (some { success := true })).1).startCommandsIssued.length = 2 ∧
    ¬ (((startService (startService smRunning "censor" (some { success := true })).1
        "censor" (some { success := true })).1).startCommandsIssued.length ≤ 1) := by
  refine ⟨rfl, rfl, by decide⟩

/-- Claim C2 (amended).  Every `startService` call — regardless of the
service's current status, including `Running` — issues exactly one external
start command, and returns the command's success as its result. -/
theorem claim_idempotent_start_amended (s : SMState) (name : String)
    (res : Option CmdResult) :
    ((startService s name res).1).startCommandsIssued =
      s.startCommandsIssued ++ [name] ∧
    (startService s name res).2 =
      (match res with
       | some r => r.success
       | none => false) := by
  cases res with
  | some r =>
    by_cases h : r.success = true
    · simp only [startService]
      rw [if_pos h]
      exact ⟨rfl, h.symm⟩
    · simp only [startService]
      rw [if_neg h]
      refine ⟨rfl, ?_⟩
      cases hr : r.success with
      | false => rfl
      | true => exact absurd hr h
  | none => exact ⟨rfl, rfl⟩

/-- Claim C3 counterexample.  Opening `writing` with normal priority and no
`immediate` flag: by the time `openTab` returns, the new tab's status is
already `loading` even though its id is still sitting un-dequeued in the
lazy-load queue — the transition did not wait for the deferred scheduler,
contradicting the claim's deferred branch. -/
theorem claim_deferred_load_counterexample :
    (findTab (openTab tmInit "writing"
        { priority := Priority.normal, immediate := false } 7
        CloseAnswer.closeOnly).tabs (TabId.sys "writing" 1)).map
      (fun t => t.status) = some (some TabStatus.loading) ∧
    TabId.sys "writing" 1 ∈ (openTab tmInit "writing"
        { priority := Priority.normal, immediate := false } 7
        CloseAnswer.closeOnly).lazyLoadQueue := by
  decide

/-- Claim C3 (amended).  Every `openTab` that creates a new tab transitions
it to `Loading` immediately, whatever the priority/immediate options:
`openTab` activates the new tab and `activateTab` eagerly loads any unloaded
system tab before the priority branch runs.  On the deferred branch the id
is still enqueued, but the scheduled callback finds the tab already loaded
and is a no-op. -/
theorem claim_deferred_load (s : TMState) (systemName : String)
    (opts : OpenOptions) (now : Nat) (ans : CloseAnswer) (hi : Inv s)
    (hkey : systemName ∈ portalSystems)
    (hnone : s.tabs.find? (fun t => decide (t.system = some systemName)) = none) :
    findTab (openTab s systemName opts now ans).tabs
        (TabId.sys systemName (s.tabCounter + 1)) =
      some (loadedFresh systemName opts.priority now (s.tabCounter + 1)) ∧
    (¬ (opts.priority = Priority.high ∨ opts.immediate = true) →
      TabId.sys systemName (s.tabCounter + 1) ∈
        (openTab s systemName opts now ans).lazyLoadQueue ∧
      ∀ m, runScheduledLoad (openTab s systemName opts now ans)
          (TabId.sys systemName (s.tabCounter + 1)) m =
        openTab s systemName opts now ans) := by
  have hcap : ¬ (maxTabs ≤ s.tabs.length) := by
    have := inv_length_le hi
    unfold maxTabs
    omega
  have heq := openTab_new_eq s systemName opts now ans hkey hnone hcap
  have hfresh_ne : ∀ t ∈ s.tabs, t.id ≠ TabId.sys systemName (s.tabCounter + 1) := by
    intro t ht hid
    have h := hi.2.2.1 t ht
    unfold TabOk at h
    rw [hid] at h
    unfold idOk at h
    exact absurd h.2.2.2.2.2 (by omega)
  have hfind2 : findTab
      ({ s with
        tabs := s.tabs ++ [freshTab systemName opts.priority now (s.tabCounter + 1)],
        tabCounter := s.tabCounter + 1 } : TMState).tabs
      (TabId.sys systemName (s.tabCounter + 1)) =
      some (freshTab systemName opts.priority now (s.tabCounter + 1)) := by
    show findTab (s.tabs ++ [freshTab systemName opts.priority now (s.tabCounter + 1)])
        (TabId.sys systemName (s.tabCounter + 1)) = _
    rw [findTab_append_of_forne hfresh_ne]
    exact findTab_singleton _ _ rfl
  have hact_eq := activateTab_eq_load now hfind2 rfl rfl
  have hfindAct := applyActivation_find now hfind2 rfl
  have hfind3 : findTab (activateTab
      { s with
        tabs := s.tabs ++ [freshTab systemName opts.priority now (s.tabCounter + 1)],
        tabCounter := s.tabCounter + 1 }
      (TabId.sys systemName (s.tabCounter + 1)) now).tabs
      (TabId.sys systemName (s.tabCounter + 1)) =
      some (loadedFresh systemName opts.priority now (s.tabCounter + 1)) := by
    rw [hact_eq]
    exact loadTabContent_find now hfindAct rfl rfl
  constructor
  · rw [heq]
    by_cases hbr : opts.priority = Priority.high ∨ opts.immediate = true
    · rw [if_pos hbr]
      rw [loadTabContent_of_loaded now hfind3 rfl]
      exact hfind3
    · rw [if_neg hbr]
      exact hfind3
  · intro hbr
    rw [heq, if_neg hbr]
    refine ⟨mem_addIfAbsent_self _ _, ?_⟩
    intro m
    unfold runScheduledLoad
    rw [if_pos (mem_addIfAbsent_self _ _)]
    exact loadTabContent_of_loaded m hfind3 rfl

/-- Witness for claim C3 (amended) at a concrete input: opening `writing`
from the initial state with normal priority. -/
theorem claim_deferred_load_witness :
    findTab (openTab tmInit "writing"
        { priority := Priority.normal, immediate := false } 7
        CloseAnswer.closeOnly).tabs (TabId.sys "writing" 1) =
      some (loadedFresh "writing" Priority.normal 7 1) ∧
    TabId.sys "writing" 1 ∈ (openTab tmInit "writing"
        { priority := Priority.normal, immediate := false } 7
        CloseAnswer.closeOnly).lazyLoadQueue ∧
    runScheduledLoad (openTab tmInit "writing"
        { priority := Priority.normal, immediate := false } 7
        CloseAnswer.closeOnly) (TabId.sys "writing" 1) 9 =
      openTab tmInit "writing"
        { priority := Priority.normal, immediate := false } 7 CloseAnswer.closeOnly := by
  have H := claim_deferred_load tmInit "writing"
    { priority := Priority.normal, immediate := false } 7 CloseAnswer.closeOnly
    (by decide) (by decide) (by decide)
  exact ⟨H.1, (H.2 (by decide)).1, (H.2 (by decide)).2 9⟩

/-- Claim C9 (confirmed).  `closeTab` is a no-op on a non-closable tab;
closing a closable tab (with the confirmation answered, i.e. not cancelled)
removes exactly that tab, and when it was the active tab the registry
activates the designated default/home tab — the welcome tab, which is always
present, so the lower-preference fallbacks never arise. -/
theorem claim_close_semantics (s : TMState) (i : TabId) (now : Nat)
    (ans : CloseAnswer) (hi : Inv s) (tab : Tab)
    (hfind : findTab s.tabs i = some tab) :
    (tab.isClosable = false → closeTab s i true now ans = s) ∧
    (tab.isClosable = true → ans ≠ CloseAnswer.cancel →
      (closeTab s i true now ans).tabs.map (fun t => t.id) =
        (s.tabs.filter (fun t => decide (t.id ≠ i))).map (fun t => t.id) ∧
      i ∉ (closeTab s i true now ans).tabs.map (fun t => t.id) ∧
      (s.activeTab = some i →
        (closeTab s i true now ans).activeTab = some TabId.welcome)) := by
  constructor
  · intro hnc
    simp only [closeTab, hfind]
    rw [if_pos hnc]
  · intro hc hans
    have hclose_eq : closeTab s i true now ans =
        (if s.activeTab = some i then activateNextTab (removeTabState s i) now
         else removeTabState s i) := by
      simp only [closeTab, hfind]
      rw [if_neg (by simp [hc]), if_neg (fun h => hans h.2.2.2)]
    have htabmem : tab ∈ s.tabs := findTab_mem hfind
    have htabid : tab.id = i := findTab_eq_id hfind
    have hinw : i ≠ TabId.welcome := by
      intro hiw
      have h := hi.2.2.1 tab htabmem
      unfold TabOk at h
      rw [htabid, hiw] at h
      rw [h.2.1] at hc
      cases hc
    have hnotin : i ∉ (s.tabs.filter
        (fun t => decide (t.id ≠ i))).map (fun t => t.id) := by
      intro hmem
      obtain ⟨t, ht, hid⟩ := List.mem_map.mp hmem
      have hne := (List.mem_filter.mp ht).2
      simp only [decide_eq_true_eq] at hne
      exact hne hid
    have hok' : ∀ t ∈ (removeTabState s i).tabs, TabOk s.tabCounter t := by
      intro t ht
      exact hi.2.2.1 t (List.mem_of_mem_filter ht)
    have hwel' : TabId.welcome ∈ (removeTabState s i).tabs.map (fun t => t.id) := by
      obtain ⟨w, hw, hwid⟩ := List.mem_map.mp hi.2.2.2
      refine List.mem_map.mpr ⟨w, List.mem_filter.mpr ⟨hw, ?_⟩, hwid⟩
      simp only [decide_eq_true_eq]
      rw [hwid]
      exact fun h => hinw h.symm
    rw [hclose_eq]
    by_cases hact : s.activeTab = some i
    · rw [if_pos hact]
      have hmap : (activateNextTab (removeTabState s i) now).tabs.map (fun t => t.id) =
          (removeTabState s i).tabs.map (fun t => t.id) :=
        map_id_of_map_core (activateNextTab_coreEq _ now).1
      refine ⟨hmap, ?_, ?_⟩
      · rw [hmap]
        exact hnotin
      · intro _
        exact activateNextTab_welcome now hok' hwel'
    · rw [if_neg hact]
      exact ⟨rfl, hnotin, fun h => absurd h hact⟩

/-- Witness for claim C9 at a concrete input: closing the active `writing`
tab removes it and activates the welcome tab; the welcome tab itself is not
closable. -/
theorem claim_close_semantics_witness :
    closeTab exOpened TabId.welcome true 5 CloseAnswer.closeOnly = exOpened ∧
    (closeTab exOpened (TabId.sys "writing" 1) true 5 CloseAnswer.closeOnly).tabs.map
        (fun t => t.id) =
      (exOpened.tabs.filter
        (fun t => decide (t.id ≠ TabId.sys "writing" 1))).map (fun t => t.id) ∧
    TabId.sys "writing" 1 ∉
      (closeTab exOpened (TabId.sys "writing" 1) true 5
        CloseAnswer.closeOnly).tabs.map (fun t => t.id) ∧
    (closeTab exOpened (TabId.sys "writing" 1) true 5
        CloseAnswer.closeOnly).activeTab = some TabId.welcome := by
  have Hw := (claim_close_semantics exOpened TabId.welcome 5 CloseAnswer.closeOnly
    (by decide) (deactF 1 welcomeTab) (by decide)).1 (by decide)
  have H := (claim_close_semantics exOpened (TabId.sys "writing" 1) 5
    CloseAnswer.closeOnly (by decide) (loadedFresh "writing" Priority.normal 1 1)
    (by decide)).2 (by decide) (by decide)
  exact ⟨Hw, H.1, H.2.1, H.2.2 (by decide)⟩

end Portal
